import Mathlib

/-!
Verification of the remote-cd-player client and disc-session core.

Shallow embedding of `src/frontend/cdfunctions.js` (the browser client of the
CD player) together with a model, taken from the specification, of the backend
disc-session manager whose Python source is not part of the repository
snapshot.  JavaScript numbers that are used as integers (track numbers,
millisecond timestamps) are embedded as `Int`; non-negative counts as `Nat`.
DOM updates and log output are not modelled; the externally visible effects of
each operation (HTTP fetches, starting and stopping the audio source) are
recorded as an event trace.
-/

namespace CdPlayer

/-- A track of `cdInfo.tracks` as delivered by `/api/cd/info`
(fields used by `cdfunctions.js`: `number`, `title`, `duration`). -/
structure Track where
  number : Int
  title : String
  duration : Nat
deriving DecidableEq

/-- The JSON payload of `/api/cd/info` cached in the global `cdInfo`. -/
structure DiscInfo where
  artist : String
  title : String
  tracks : List Track
deriving DecidableEq

/-- Externally visible effects of the client functions. -/
inductive Ev where
  | fetchInfo
  | fetchStop
  | fetchPlay (n : Int)
  | audioStopped
  | audioStarted (n : Int)
deriving DecidableEq

/-- The global mutable variables of `cdfunctions.js` that the modelled
functions read or write.  `audioSource` and `currentBuffer` record whether the
corresponding global is non-null. -/
structure ClientState where
  cdInfo : Option DiscInfo
  currentTrack : Option Int
  isPlaying : Bool
  audioSource : Bool
  currentBuffer : Bool
  progressInterval : Bool
  pollingActive : Bool
  lastCheckTime : Int
deriving DecidableEq

/-- Polling interval constant `CHECK_INTERVAL = 5000` milliseconds. -/
def CHECK_INTERVAL : Int := 5000

/-- Initial values of the globals (`cdInfo = null`, `currentTrack = null`,
`isPlaying = false`, `lastCheckTime = 0`, no audio source or buffer). -/
def initClientState : ClientState :=
  { cdInfo := none, currentTrack := none, isPlaying := false,
    audioSource := false, currentBuffer := false, progressInterval := false,
    pollingActive := false, lastCheckTime := 0 }

/-- Model of `stopTrack()`: stops polling, stops and discards the audio source if one
exists, clears the progress timer, resets `isPlaying` and `currentBuffer`,
and issues `GET /api/cd/stop`.  The DOM resets are not modelled.  Returns the
updated globals and the trace of visible effects, in order. -/
def stopTrack (s : ClientState) : ClientState × List Ev :=
  ({ s with pollingActive := false, audioSource := false,
            progressInterval := false, isPlaying := false,
            currentBuffer := false },
   (if s.audioSource then [Ev.audioStopped] else []) ++ [Ev.fetchStop])

/-- Model of `playTrack(trackNumber)`: returns immediately if `cdInfo` is null;
otherwise awaits `stopTrack()`, sets `currentTrack`, looks the track up in
`cdInfo.tracks`, returns if absent, and otherwise fetches
`/api/cd/play/{trackNumber}`, decodes and starts the audio.  `playOk` stands
for the joint success of the fetch, `arrayBuffer()` and `decodeAudioData`;
on failure the `catch` block leaves `isPlaying = false`. -/
def playTrack (s : ClientState) (trackNumber : Int) (playOk : Bool) :
    ClientState × List Ev :=
  match s.cdInfo with
  | none => (s, [])
  | some info =>
    let s1 := (stopTrack s).1
    let evs := (stopTrack s).2
    let s2 := { s1 with currentTrack := some trackNumber }
    match info.tracks.find? (fun t => t.number == trackNumber) with
    | none => (s2, evs)
    | some _ =>
      if playOk then
        ({ s2 with audioSource := true, currentBuffer := true,
                   isPlaying := true, progressInterval := true },
         evs ++ [Ev.fetchPlay trackNumber, Ev.audioStarted trackNumber])
      else
        ({ s2 with isPlaying := false }, evs ++ [Ev.fetchPlay trackNumber])

/-- Model of the ended-event listener installed by `playTrack`: with the globals at fire
time, auto-advance to `currentTrack + 1` while not on the last track, else
`stopTrack()`.  `none` models the TypeError thrown when `cdInfo` is null; a
null `currentTrack` compares as `0` in JavaScript. -/
def onTrackEnded (s : ClientState) (playOk : Bool) :
    Option (ClientState × List Ev) :=
  match s.cdInfo with
  | none => none
  | some info =>
    let c := s.currentTrack.getD 0
    if c < (info.tracks.length : Int) then some (playTrack s (c + 1) playOk)
    else some (stopTrack s)

/-- Model of `previousTrack()`: no-op unless `cdInfo` and `currentTrack` are truthy;
plays `currentTrack - 1` when that is at least 1. -/
def previousTrack (s : ClientState) (playOk : Bool) : ClientState × List Ev :=
  match s.cdInfo, s.currentTrack with
  | some _, some c =>
    if c = 0 then (s, [])
    else if 1 ≤ c - 1 then playTrack s (c - 1) playOk
    else (s, [])
  | _, _ => (s, [])

/-- Model of `nextTrack()`: no-op unless `cdInfo` and `currentTrack` are truthy;
plays `currentTrack + 1` when that is at most `cdInfo.tracks.length`. -/
def nextTrack (s : ClientState) (playOk : Bool) : ClientState × List Ev :=
  match s.cdInfo, s.currentTrack with
  | some info, some c =>
    if c = 0 then (s, [])
    else if c + 1 ≤ (info.tracks.length : Int) then playTrack s (c + 1) playOk
    else (s, [])
  | _, _ => (s, [])

/-- The cache update of `loadCDInfo` (lines 48–54): replace `cdInfo` and
redraw the interface exactly when there is no cached info or the fresh
track count of the fresh snapshot differs; the returned `Bool` records whether
`updateInterface()` ran. -/
def updateCDInfo (cached : Option DiscInfo) (fresh : DiscInfo) :
    Option DiscInfo × Bool :=
  match cached with
  | none => (some fresh, true)
  | some old =>
    if fresh.tracks.length ≠ old.tracks.length then (some fresh, true)
    else (some old, false)

/-- Model of `loadCDInfo()` invoked at time `now` (`Date.now()`): returns at once when
less than `CHECK_INTERVAL` has elapsed since `lastCheckTime`; otherwise sets
`lastCheckTime := now` and fetches `/api/cd/info`.  `result` is the parsed
response (`none` when the fetch fails or is not `ok`). -/
def loadCDInfo (s : ClientState) (now : Int) (result : Option DiscInfo) :
    ClientState × List Ev :=
  if now - s.lastCheckTime < CHECK_INTERVAL then (s, [])
  else
    let s1 := { s with lastCheckTime := now }
    match result with
    | none => (s1, [Ev.fetchInfo])
    | some fresh =>
      ({ s1 with cdInfo := (updateCDInfo s1.cdInfo fresh).1 }, [Ev.fetchInfo])

/-- The TOC invariant of the data model: track numbers are contiguous
starting at 1 and match the physical order of the disc. -/
def contiguous (info : DiscInfo) : Prop :=
  ∀ i : Fin info.tracks.length, (info.tracks.get i).number = (i : Nat) + 1

instance (info : DiscInfo) : Decidable (contiguous info) := by
  unfold contiguous; infer_instance

/-- Decimal digit list of a natural number, as the JavaScript
`Number.prototype.toString` call in `formatTime` produces for integers.
Fuel-based so that it reduces structurally. -/
def toDecimalAux (fuel n : Nat) : List Char :=
  match fuel with
  | 0 => []
  | fuel' + 1 =>
    if n < 10 then [Char.ofNat (48 + n)]
    else toDecimalAux fuel' (n / 10) ++ [Char.ofNat (48 + n % 10)]

/-- Decimal string of a natural number (`n.toString()` in the source). -/
def jsToString (n : Nat) : String := ⟨toDecimalAux (n + 1) n⟩

/-- Model of `str.padStart(2, zero)`: prepend zero characters until the
length is 2. -/
def padStart2Zero (str : String) : String :=
  if str.length < 2 then ⟨List.replicate (2 - str.length) '0' ++ str.data⟩
  else str

/-- Model of `formatTime(seconds)` for a whole number of seconds:
`minutes = Math.floor(seconds / 60)`, `remainingSeconds =
Math.floor(seconds % 60)`, rendered as
`minutes + ":" + remainingSeconds.toString().padStart(2, '0')`. -/
def formatTime (seconds : Nat) : String :=
  jsToString (seconds / 60) ++ ":" ++ padStart2Zero (jsToString (seconds % 60))

/-! The backend disc-session core, modelled from the specification.

The backend service (`main.py`, run by the `backend/Dockerfile`) is not in
the repository snapshot; only its Dockerfile, compose service and HTTP
callers are.  The definitions below are modelled from the specification's
§4.3–§4.4 and §6. -/

/-- Modelled from the spec: lifecycle events of the Extraction Process
Supervisor (`main.py` is absent from the snapshot).  `terminate` covers both
a forced termination and the reap of a naturally exited process; `spawn n`
starts the extraction process for track `n`. -/
inductive MicroEv where
  | terminate
  | spawn (n : Int)
deriving DecidableEq

/-- Modelled from the spec: the state of the Playback Session Manager — the at
most one `PlaybackSession` (identified by its track number) and the number of
live extraction processes the core owns. -/
structure CoreState where
  session : Option Int
  liveProcs : Nat
deriving DecidableEq

/-- The core at server start: no session, no processes. -/
def initCore : CoreState := { session := none, liveProcs := 0 }

/-- Effect of one supervisor event on the core state. -/
def applyMicro (c : CoreState) (m : MicroEv) : CoreState :=
  match m with
  | .terminate => { session := none, liveProcs := c.liveProcs - 1 }
  | .spawn n => { session := some n, liveProcs := c.liveProcs + 1 }

/-- Modelled from the spec: requests serialized by the Playback Session
Manager — `play n`, `stop`, natural end of track, process crash. -/
inductive CoreOp where
  | play (n : Int)
  | stop
  | trackEnded
  | procCrash
deriving DecidableEq

/-- Modelled from the spec: the supervisor events a serialized transition
performs, in order, on a disc with `trackCount` tracks.  `play n` first tears
down any current session, then validates `n` and spawns; `stop` terminates
the current session if any; natural end of track reaps the exited process and
auto-advances unless the track was the last; a crash only reaps. -/
def coreMicro (trackCount : Nat) (c : CoreState) (op : CoreOp) :
    List MicroEv :=
  match op with
  | .play n =>
    (if c.session.isSome then [MicroEv.terminate] else []) ++
    (if 1 ≤ n ∧ n ≤ (trackCount : Int) then [MicroEv.spawn n] else [])
  | .stop => if c.session.isSome then [MicroEv.terminate] else []
  | .trackEnded =>
    match c.session with
    | none => []
    | some n =>
      [MicroEv.terminate] ++
      (if n < (trackCount : Int) then [MicroEv.spawn (n + 1)] else [])
  | .procCrash => if c.session.isSome then [MicroEv.terminate] else []

/-- State after a whole serialized transition. -/
def coreStep (trackCount : Nat) (c : CoreState) (op : CoreOp) : CoreState :=
  (coreMicro trackCount c op).foldl applyMicro c

/-- Every core state visited while executing a sequence of requests from
state `c`, including `c` itself and each intermediate state inside a
transition (after each individual supervisor event). -/
def runCore (trackCount : Nat) (c : CoreState) : List CoreOp → List CoreState
  | [] => [c]
  | op :: ops =>
    (coreMicro trackCount c op).scanl applyMicro c ++
      runCore trackCount (coreStep trackCount c op) ops

/-- Modelled from the spec: error taxonomy of `play` (§7). -/
inductive PlayError where
  | trackOutOfRange
  | noDisc
deriving DecidableEq

/-- Modelled from the spec: `GET /api/cd/play/n` — tear down any previous
session, fail with `noDisc` when no DiscInfo is cached, with
`trackOutOfRange` when `n` is outside `[1, trackCount]`, else spawn the
extraction process for track `n`.  Returns the result, the new core state
and the supervisor events performed. -/
def corePlay (disc : Option Nat) (c : CoreState) (n : Int) :
    Except PlayError Unit × CoreState × List MicroEv :=
  let t : List MicroEv := if c.session.isSome then [MicroEv.terminate] else []
  let c1 := t.foldl applyMicro c
  match disc with
  | none => (.error .noDisc, c1, t)
  | some trackCount =>
    if 1 ≤ n ∧ n ≤ (trackCount : Int) then
      (.ok (), applyMicro c1 (.spawn n), t ++ [MicroEv.spawn n])
    else (.error .trackOutOfRange, c1, t)

/-- Modelled from the spec: `GET /api/cd/stop` — terminate the active
extraction process if any, then answer 200 unconditionally.  The `Bool` is
whether the response is a success. -/
def coreStop (c : CoreState) : Bool × CoreState × List MicroEv :=
  let t : List MicroEv := if c.session.isSome then [MicroEv.terminate] else []
  (true, t.foldl applyMicro c, t)

/-- The disc of the test scenario in the specification: 5 tracks with durations
[180, 200, 150, 220, 190] seconds. -/
def disc5 : DiscInfo :=
  { artist := "Unknown Artist", title := "Unknown Title",
    tracks := [⟨1, "Track 1", 180⟩, ⟨2, "Track 2", 200⟩, ⟨3, "Track 3", 150⟩,
               ⟨4, "Track 4", 220⟩, ⟨5, "Track 5", 190⟩] }

/-- A client state in which track 2 of `disc5` is playing. -/
def playingState : ClientState :=
  { cdInfo := some disc5, currentTrack := some 2, isPlaying := true,
    audioSource := true, currentBuffer := true, progressInterval := true,
    pollingActive := true, lastCheckTime := 0 }

/-- The session-manager invariant: the number of live extraction processes is
exactly one when a `PlaybackSession` exists and zero otherwise. -/
def coreInv (c : CoreState) : Prop :=
  c.liveProcs = if c.session.isSome then 1 else 0

/-- Property C10 in the words of the claim: the minutes, a colon, and the
seconds-remainder zero-padded to exactly two digits. -/
def specFormatTime (s : Nat) : String :=
  jsToString (s / 60) ++ ":" ++
    (if s % 60 < 10 then "0" ++ jsToString (s % 60) else jsToString (s % 60))

/-! Helper lemmas. -/

/-- On a contiguous TOC, looking up a track number outside
`[1, tracks.length]` finds nothing. -/
lemma find?_track_eq_none (info : DiscInfo) (hc : contiguous info) (n : Int)
    (hout : n < 1 ∨ (info.tracks.length : Int) < n) :
    info.tracks.find? (fun t => t.number == n) = none := by
  rw [List.find?_eq_none]
  intro t ht
  rcases List.mem_iff_get.mp ht with ⟨i, rfl⟩
  have hnum := hc i
  have hi : (i : Nat) < info.tracks.length := i.isLt
  simp only [beq_iff_eq, hnum]
  rcases hout with h | h <;> · intro hEq; omega

/-- On a contiguous TOC, every track number inside `[1, tracks.length]` is
found. -/
lemma find?_track_isSome (info : DiscInfo) (hc : contiguous info) (n : Int)
    (h1 : 1 ≤ n) (h2 : n ≤ (info.tracks.length : Int)) :
    ∃ t, info.tracks.find? (fun t => t.number == n) = some t := by
  rw [← Option.isSome_iff_exists, List.find?_isSome]
  have hlt : n.toNat - 1 < info.tracks.length := by omega
  refine ⟨info.tracks.get ⟨n.toNat - 1, hlt⟩, List.get_mem _ _ _, ?_⟩
  have hnum := hc ⟨n.toNat - 1, hlt⟩
  simp only [beq_iff_eq, hnum]
  omega

/-- If `A ++ B = l1 ++ e :: l2` and `e` does not occur in `A`, then the split
point is inside `B`, so all of `A` lands in `l1`. -/
lemma mem_left_of_mid_split {α : Type} {A B l1 l2 : List α} {e : α}
    (h : A ++ B = l1 ++ e :: l2) (he : e ∉ A) {x : α} (hx : x ∈ A) :
    x ∈ l1 := by
  rcases List.append_eq_append_iff.mp h with ⟨w, hw1, _⟩ | ⟨w, hw1, hw2⟩
  · exact hw1 ▸ List.mem_append.mpr (Or.inl hx)
  · cases w with
    | nil => simpa [hw1] using hx
    | cons a w' =>
      exfalso
      have : a = e := (List.cons_eq_cons.mp hw2.symm).1
      exact he (hw1 ▸ List.mem_append.mpr (Or.inr (this ▸ List.mem_cons_self a w')))

/-- The trace of `stopTrack` never contains a play request. -/
lemma stopTrack_no_fetchPlay (s : ClientState) (m : Int) :
    Ev.fetchPlay m ∉ (stopTrack s).2 := by
  unfold stopTrack
  cases s.audioSource <;> simp

/-- `playTrack` on an out-of-range track number of a contiguous disc: the
teardown still runs and `currentTrack` is still overwritten, but no play
request is issued. -/
lemma playTrack_out_of_range_eq (s : ClientState) (info : DiscInfo) (n : Int)
    (ok : Bool) (hcd : s.cdInfo = some info) (hc : contiguous info)
    (hout : n < 1 ∨ (info.tracks.length : Int) < n) :
    playTrack s n ok =
      ({ (stopTrack s).1 with currentTrack := some n }, (stopTrack s).2) := by
  unfold playTrack
  rw [hcd]
  simp only [find?_track_eq_none info hc n hout]

/-- The trace of `playTrack` is the teardown trace followed by nothing, a
play request, or a play request and the start of the audio. -/
lemma playTrack_snd (s : ClientState) (n : Int) (ok : Bool) :
    (playTrack s n ok).2 = [] ∨
    ∃ B, (playTrack s n ok).2 = (stopTrack s).2 ++ B ∧
      (B = [] ∨ B = [Ev.fetchPlay n, Ev.audioStarted n] ∨
        B = [Ev.fetchPlay n]) := by
  unfold playTrack
  cases hcd : s.cdInfo with
  | none => exact Or.inl rfl
  | some info =>
    cases hf : info.tracks.find? (fun t => t.number == n) with
    | none => exact Or.inr ⟨[], by simp [hf]⟩
    | some t =>
      cases ok with
      | true => exact Or.inr ⟨[Ev.fetchPlay n, Ev.audioStarted n], by simp [hf]⟩
      | false => exact Or.inr ⟨[Ev.fetchPlay n], by simp [hf]⟩



lemma coreInv_scanl (tc : Nat) (c : CoreState) (op : CoreOp) (hinv : coreInv c) :
    ∀ st ∈ (coreMicro tc c op).scanl applyMicro c, coreInv st := by
  rcases c with ⟨sess, k⟩
  cases sess <;> simp only [coreInv] at hinv <;> simp at hinv <;> subst hinv <;>
    cases op <;> simp only [coreMicro] <;> try split_ifs
  all_goals simp_all [List.scanl, applyMicro, coreInv]

lemma coreInv_step (tc : Nat) (c : CoreState) (op : CoreOp) (hinv : coreInv c) :
    coreInv (coreStep tc c op) := by
  rcases c with ⟨sess, k⟩
  cases sess <;> simp only [coreInv] at hinv <;> simp at hinv <;> subst hinv <;>
    cases op <;> simp only [coreStep, coreMicro] <;> try split_ifs
  all_goals simp_all [applyMicro, coreInv]

lemma coreInv_runCore (tc : Nat) (ops : List CoreOp) :
    ∀ c, coreInv c → ∀ st ∈ runCore tc c ops, coreInv st := by
  induction ops with
  | nil =>
    intro c hc st hst
    simp only [runCore, List.mem_singleton] at hst
    exact hst ▸ hc
  | cons op ops ih =>
    intro c hc st hst
    simp only [runCore, List.mem_append] at hst
    rcases hst with h | h
    · exact coreInv_scanl tc c op hc st h
    · exact ih _ (coreInv_step tc c op hc) st h

lemma padStart2Zero_small : ∀ r : Nat, r < 60 →
    padStart2Zero (jsToString r) =
      if r < 10 then "0" ++ jsToString r else jsToString r := by decide

/-- C1: at every instant during any sequence of serialized core transitions
from server start, the number of live extraction processes owned by the core
is zero or one, and it is one exactly when a PlaybackSession exists. -/
theorem single_session_invariant (tc : Nat) (ops : List CoreOp) (st : CoreState)
    (hst : st ∈ runCore tc initCore ops) :
    (st.liveProcs = 0 ∨ st.liveProcs = 1) ∧
      st.liveProcs = (if st.session.isSome then 1 else 0) := by
  have h := coreInv_runCore tc ops initCore (by simp [coreInv, initCore]) st hst
  refine ⟨?_, h⟩
  unfold coreInv at h
  split at h <;> omega

theorem single_session_invariant_witness :
    (((⟨some 3, 1⟩ : CoreState).liveProcs = 0 ∨ (⟨some 3, 1⟩ : CoreState).liveProcs = 1) ∧
      (⟨some 3, 1⟩ : CoreState).liveProcs =
        (if (⟨some 3, 1⟩ : CoreState).session.isSome then 1 else 0)) :=
  single_session_invariant 5 [CoreOp.play 3, CoreOp.play 1, CoreOp.stop] ⟨some 3, 1⟩
    (by decide)

/-- C10: `formatTime` renders floor(s/60), a colon, and floor(s mod 60)
zero-padded to two digits. -/
theorem formatTime_matches_spec (s : Nat) : formatTime s = specFormatTime s := by
  unfold formatTime specFormatTime
  rw [padStart2Zero_small (s % 60) (Nat.mod_lt _ (by norm_num))]

theorem formatTime_witness :
    formatTime 185 = specFormatTime 185 ∧ formatTime 0 = specFormatTime 0 :=
  ⟨formatTime_matches_spec 185, formatTime_matches_spec 0⟩


/-- C2: every play request or audio start in a `playTrack` trace is preceded
by the completed teardown: the stop fetch, and the stop of the previous audio
source when one existed. -/
theorem play_tears_down_before_streaming (s : ClientState) (n : Int) (ok : Bool)
    (e : Ev) (l1 l2 : List Ev)
    (he : (∃ m, e = Ev.fetchPlay m) ∨ ∃ m, e = Ev.audioStarted m)
    (hsplit : (playTrack s n ok).2 = l1 ++ e :: l2) :
    Ev.fetchStop ∈ l1 ∧ (s.audioSource = true → Ev.audioStopped ∈ l1) := by
  have he' : e ∉ (stopTrack s).2 := by
    rcases he with ⟨m, rfl⟩ | ⟨m, rfl⟩ <;> unfold stopTrack <;>
      cases s.audioSource <;> simp
  rcases playTrack_snd s n ok with h | ⟨B, hB, _⟩
  · rw [h] at hsplit
    exact absurd hsplit.symm (by simp)
  · rw [hB] at hsplit
    constructor
    · exact mem_left_of_mid_split hsplit he'
        (by unfold stopTrack; cases s.audioSource <;> simp)
    · intro ha
      exact mem_left_of_mid_split hsplit he' (by simp [stopTrack, ha])

theorem play_tears_down_before_streaming_witness :
    Ev.fetchStop ∈ [Ev.audioStopped, Ev.fetchStop] ∧
      (playingState.audioSource = true →
        Ev.audioStopped ∈ [Ev.audioStopped, Ev.fetchStop]) :=
  play_tears_down_before_streaming playingState 3 true (Ev.fetchPlay 3)
    [Ev.audioStopped, Ev.fetchStop] [Ev.audioStarted 3]
    (Or.inl ⟨3, rfl⟩) (by decide)

theorem invalid_play_undisturbed_counterexample :
    playingState.isPlaying = true ∧ playingState.audioSource = true ∧
    playingState.cdInfo = some disc5 ∧ disc5.tracks.length = 5 ∧
    (playTrack playingState 99 true).1.isPlaying = false ∧
    (playTrack playingState 99 true).1.audioSource = false ∧
    Ev.audioStopped ∈ (playTrack playingState 99 true).2 ∧
    Ev.fetchStop ∈ (playTrack playingState 99 true).2 := by decide

/-- C3 amended: an out-of-range play request issues no play request and the
current track stays unplayed, but the currently playing session is NOT left
undisturbed: `playTrack` tears it down (and overwrites `currentTrack`) before
validating the track number. -/
theorem invalid_play_tears_down_then_rejects (s : ClientState) (info : DiscInfo)
    (n : Int) (ok : Bool) (hcd : s.cdInfo = some info) (hc : contiguous info)
    (hout : n < 1 ∨ (info.tracks.length : Int) < n) :
    playTrack s n ok =
      ({ (stopTrack s).1 with currentTrack := some n }, (stopTrack s).2) ∧
    ∀ m, Ev.fetchPlay m ∉ (playTrack s n ok).2 := by
  refine ⟨playTrack_out_of_range_eq s info n ok hcd hc hout, fun m => ?_⟩
  rw [playTrack_out_of_range_eq s info n ok hcd hc hout]
  exact stopTrack_no_fetchPlay s m

theorem invalid_play_tears_down_then_rejects_witness :
    playTrack playingState 99 true =
      ({ (stopTrack playingState).1 with currentTrack := some 99 },
        (stopTrack playingState).2) ∧
    Ev.fetchPlay 99 ∉ (playTrack playingState 99 true).2 :=
  ⟨(invalid_play_tears_down_then_rejects playingState disc5 99 true rfl
      (by decide) (by decide)).1,
   (invalid_play_tears_down_then_rejects playingState disc5 99 true rfl
      (by decide) (by decide)).2 99⟩

/-- C4: on natural end of track, the last track stops (no auto play) and a
non-last track auto-advances to the next track number. -/
theorem natural_end_of_track (s : ClientState) (info : DiscInfo) (c : Int)
    (ok : Bool) (hcd : s.cdInfo = some info) (hcur : s.currentTrack = some c)
    (hcont : contiguous info) :
    (c = (info.tracks.length : Int) →
      onTrackEnded s ok = some (stopTrack s) ∧
      (∀ m, Ev.fetchPlay m ∉ (stopTrack s).2) ∧
      (stopTrack s).1.isPlaying = false ∧
      (stopTrack s).1.audioSource = false) ∧
    (1 ≤ c → c < (info.tracks.length : Int) →
      onTrackEnded s ok = some (playTrack s (c + 1) ok) ∧
      Ev.fetchPlay (c + 1) ∈ (playTrack s (c + 1) ok).2) := by
  constructor
  · intro hlast
    have hnotlt : ¬ ((s.currentTrack.getD 0) < (info.tracks.length : Int)) := by
      rw [hcur]; simp; omega
    refine ⟨?_, fun m => stopTrack_no_fetchPlay s m, rfl, rfl⟩
    unfold onTrackEnded
    rw [hcd]
    dsimp only
    rw [if_neg hnotlt]
  · intro hge hlt
    have hlt' : (s.currentTrack.getD 0) < (info.tracks.length : Int) := by
      rw [hcur]; simpa using hlt
    have honto : onTrackEnded s ok = some (playTrack s (c + 1) ok) := by
      unfold onTrackEnded
      rw [hcd]
      dsimp only
      rw [if_pos hlt', hcur]
      simp
    refine ⟨honto, ?_⟩
    obtain ⟨t, hfind⟩ :=
      find?_track_isSome info hcont (c + 1) (by omega) (by omega)
    unfold playTrack
    rw [hcd]
    dsimp only
    rw [hfind]
    cases ok <;> simp

theorem natural_end_of_track_witness :
    onTrackEnded { playingState with currentTrack := some 5 } true =
      some (stopTrack { playingState with currentTrack := some 5 }) ∧
    onTrackEnded { playingState with currentTrack := some 3 } true =
      some (playTrack { playingState with currentTrack := some 3 } (3 + 1) true) ∧
    Ev.fetchPlay (3 + 1) ∈
      (playTrack { playingState with currentTrack := some 3 } (3 + 1) true).2 :=
  ⟨((natural_end_of_track _ disc5 5 true rfl rfl (by decide)).1 (by decide)).1,
   ((natural_end_of_track _ disc5 3 true rfl rfl (by decide)).2 (by decide)
      (by decide)).1,
   ((natural_end_of_track _ disc5 3 true rfl rfl (by decide)).2 (by decide)
      (by decide)).2⟩


/-- C5: a play request with a track number outside `[1, trackCount]` fails
with `trackOutOfRange`, the supervisor spawns no process, and the client
issues no play fetch. -/
theorem out_of_range_play_spawns_nothing (tc : Nat) (c : CoreState) (n : Int)
    (s : ClientState) (info : DiscInfo) (ok : Bool)
    (hcd : s.cdInfo = some info) (hcont : contiguous info)
    (hlen : info.tracks.length = tc)
    (hout : n < 1 ∨ (tc : Int) < n) :
    (corePlay (some tc) c n).1 = Except.error PlayError.trackOutOfRange ∧
    (∀ m, MicroEv.spawn m ∉ (corePlay (some tc) c n).2.2) ∧
    (∀ m, Ev.fetchPlay m ∉ (playTrack s n ok).2) := by
  subst hlen
  have hrange : ¬ (1 ≤ n ∧ n ≤ (info.tracks.length : Int)) := by omega
  refine ⟨?_, fun m => ?_, fun m => ?_⟩
  · simp [corePlay, hrange]
  · simp only [corePlay]
    rw [if_neg hrange]
    cases hs : c.session <;> simp
  · rw [playTrack_out_of_range_eq s info n ok hcd hcont hout]
    exact stopTrack_no_fetchPlay s m

theorem out_of_range_play_spawns_nothing_witness :
    (corePlay (some 5) ⟨some 3, 1⟩ 99).1 =
      Except.error PlayError.trackOutOfRange ∧
    MicroEv.spawn 99 ∉ (corePlay (some 5) ⟨some 3, 1⟩ 99).2.2 ∧
    Ev.fetchPlay 99 ∉ (playTrack playingState 99 true).2 :=
  ⟨(out_of_range_play_spawns_nothing 5 ⟨some 3, 1⟩ 99 playingState disc5 true rfl
      (by decide) (by decide) (by decide)).1,
   (out_of_range_play_spawns_nothing 5 ⟨some 3, 1⟩ 99 playingState disc5 true rfl
      (by decide) (by decide) (by decide)).2.1 99,
   (out_of_range_play_spawns_nothing 5 ⟨some 3, 1⟩ 99 playingState disc5 true rfl
      (by decide) (by decide) (by decide)).2.2 99⟩

/-- C6: a stop with no active session issues only the stop fetch and stops
no audio source, is idempotent, and the modelled stop endpoint terminates
nothing there and answers success unconditionally. -/
theorem stop_without_session_is_noop (s : ClientState) (c : CoreState)
    (hs : s.audioSource = false) (hc : c.session = none) :
    (stopTrack s).2 = [Ev.fetchStop] ∧
    stopTrack (stopTrack s).1 = ((stopTrack s).1, [Ev.fetchStop]) ∧
    coreStop c = (true, c, []) ∧
    (∀ c' : CoreState, (coreStop c').1 = true) := by
  refine ⟨by simp [stopTrack, hs], by simp [stopTrack], ?_, fun c' => rfl⟩
  rcases c with ⟨sess, k⟩
  cases hc
  simp [coreStop]

theorem stop_without_session_is_noop_witness :
    (stopTrack initClientState).2 = [Ev.fetchStop] ∧
    stopTrack (stopTrack initClientState).1 =
      ((stopTrack initClientState).1, [Ev.fetchStop]) ∧
    coreStop initCore = (true, initCore, []) :=
  ⟨(stop_without_session_is_noop initClientState initCore rfl rfl).1,
   (stop_without_session_is_noop initClientState initCore rfl rfl).2.1,
   (stop_without_session_is_noop initClientState initCore rfl rfl).2.2.1⟩

theorem info_poll_interval_counterexample :
    (loadCDInfo initClientState 6000 none).2 = [Ev.fetchInfo] ∧
    (loadCDInfo (loadCDInfo initClientState 6000 none).1 10000 none).2 = [] ∧
    (loadCDInfo
        (loadCDInfo (loadCDInfo initClientState 6000 none).1 10000 none).1
        12000 none).2 = [Ev.fetchInfo] ∧
    (12000 - 10000 : Int) < CHECK_INTERVAL := by decide

/-- C7 amended: when an invocation of `loadCDInfo` actually fetched, any
invocation less than `CHECK_INTERVAL` later performs no fetch and leaves the
state unchanged.  (Between two arbitrary invocations this fails: a
rate-limited invocation does not refresh `lastCheckTime`.) -/
theorem info_fetch_min_interval (s : ClientState) (t tq : Int)
    (r rq : Option DiscInfo) (hfetch : (loadCDInfo s t r).2 ≠ [])
    (hgap : tq - t < CHECK_INTERVAL) :
    loadCDInfo (loadCDInfo s t r).1 tq rq = ((loadCDInfo s t r).1, []) := by
  by_cases hg : t - s.lastCheckTime < CHECK_INTERVAL
  · exact absurd (by simp [loadCDInfo, hg]) hfetch
  · have hlast : (loadCDInfo s t r).1.lastCheckTime = t := by
      cases r with
      | none => simp [loadCDInfo, hg]
      | some fresh => simp [loadCDInfo, hg]
    generalize hX : (loadCDInfo s t r).1 = X at hlast ⊢
    simp [loadCDInfo, hlast, hgap]

theorem info_fetch_min_interval_witness :
    loadCDInfo (loadCDInfo initClientState 6000 none).1 10000 none =
      ((loadCDInfo initClientState 6000 none).1, []) :=
  info_fetch_min_interval initClientState 6000 10000 none none
    (by decide) (by decide)

/-- C8: after a successful info read the cache is replaced iff nothing was
cached or the track count differs; an equal track count leaves the cached
snapshot unchanged and skips the interface redraw. -/
theorem cdinfo_replaced_iff_track_count_differs (cached : Option DiscInfo)
    (fresh : DiscInfo) :
    ((updateCDInfo cached fresh).2 = true ↔
      cached = none ∨
        ∃ old, cached = some old ∧
          fresh.tracks.length ≠ old.tracks.length) ∧
    (∀ old, cached = some old → fresh.tracks.length = old.tracks.length →
      updateCDInfo cached fresh = (some old, false)) := by
  constructor
  · cases cached with
    | none => simp [updateCDInfo]
    | some old =>
      by_cases h : fresh.tracks.length = old.tracks.length <;>
        simp [updateCDInfo, h]
  · intro old hc hl
    subst hc
    simp [updateCDInfo, hl]

theorem cdinfo_replaced_iff_track_count_differs_witness :
    updateCDInfo (some disc5) disc5 = (some disc5, false) :=
  (cdinfo_replaced_iff_track_count_differs (some disc5) disc5).2 disc5 rfl rfl

/-- C9: with a cached disc and a current track in range, `nextTrack` is a
no-op on the last track and `previousTrack` on track 1; otherwise they hand
`playTrack` a number inside `[1, trackCount]`. -/
theorem navigation_stays_in_range (s : ClientState) (info : DiscInfo) (c : Int)
    (ok : Bool) (hcd : s.cdInfo = some info) (hcur : s.currentTrack = some c)
    (h1 : 1 ≤ c) (h2 : c ≤ (info.tracks.length : Int)) :
    ((info.tracks.length : Int) < c + 1 → nextTrack s ok = (s, [])) ∧
    (c = 1 → previousTrack s ok = (s, [])) ∧
    (c + 1 ≤ (info.tracks.length : Int) →
      nextTrack s ok = playTrack s (c + 1) ok ∧
        1 ≤ c + 1 ∧ c + 1 ≤ (info.tracks.length : Int)) ∧
    (1 ≤ c - 1 →
      previousTrack s ok = playTrack s (c - 1) ok ∧
        1 ≤ c - 1 ∧ c - 1 ≤ (info.tracks.length : Int)) := by
  have hc0 : ¬ (c = 0) := by omega
  refine ⟨fun h => ?_, fun h => ?_, fun h => ⟨?_, by omega, h⟩,
    fun h => ⟨?_, h, by omega⟩⟩
  · unfold nextTrack
    rw [hcd, hcur]
    dsimp only
    rw [if_neg hc0, if_neg (by omega : ¬ (c + 1 ≤ (info.tracks.length : Int)))]
  · unfold previousTrack
    rw [hcd, hcur]
    dsimp only
    rw [if_neg hc0, if_neg (by omega : ¬ ((1 : Int) ≤ c - 1))]
  · unfold nextTrack
    rw [hcd, hcur]
    dsimp only
    rw [if_neg hc0, if_pos h]
  · unfold previousTrack
    rw [hcd, hcur]
    dsimp only
    rw [if_neg hc0, if_pos h]

theorem navigation_stays_in_range_witness :
    nextTrack { playingState with currentTrack := some 5 } true =
      ({ playingState with currentTrack := some 5 }, []) ∧
    previousTrack { playingState with currentTrack := some 1 } true =
      ({ playingState with currentTrack := some 1 }, []) ∧
    nextTrack playingState true = playTrack playingState (2 + 1) true ∧
    previousTrack playingState true = playTrack playingState (2 - 1) true :=
  ⟨(navigation_stays_in_range _ disc5 5 true rfl rfl (by decide) (by decide)).1
      (by decide),
   (navigation_stays_in_range _ disc5 1 true rfl rfl (by decide) (by decide)).2.1
      rfl,
   ((navigation_stays_in_range _ disc5 2 true rfl rfl (by decide)
       (by decide)).2.2.1 (by decide)).1,
   ((navigation_stays_in_range _ disc5 2 true rfl rfl (by decide)
       (by decide)).2.2.2 (by decide)).1⟩

end CdPlayer
